import Mathlib

/-!
Shallow embedding of the life-notes-api repository (src/routes/todos.routes.ts
and src/routes/notes.routes.ts) together with theorems settling the frozen
claims about its specification.

Modelling conventions:
* Timestamps (`new Date().toISOString()`, parsed due dates) are `Nat` clock
  values; every handler that reads the clock takes the read values as
  explicit parameters, one per `new Date()` call in the source.
* JSON request bodies are records of `Option` fields (`none` = property
  absent / `undefined`).
* The four type-specific todo fields are `Option (Option _)`: the outer
  layer records whether the object key is present at all (the conditional
  spreads in the source add the key only for the matching type), the inner
  layer records a possibly-`undefined` value.
* `priority` is stored as a raw `String` because the POST handler never
  validates it (unlike `type`, which is checked against `validTypes`).
* The JS comparator used for sorting returns a number or `NaN` (when a
  priority is missing from `priorityOrder`); it is modelled as
  `Option Int`, with `none` for `NaN`, and `NaN <= 0` is `false`.
-/

/-! ### String helpers (JS truthiness, `includes`, `toLowerCase`) -/

/-- JS truthiness test for an optional string field: falsy iff the property
is absent (`undefined`) or the empty string. -/
def strFalsy : Option String → Bool
  | none => true
  | some s => s == ""

/-- JS `x || d` for an optional string: the default replaces an absent or
empty (falsy) value. -/
def orDefaultStr : Option String → String → String
  | none, d => d
  | some s, d => if s == "" then d else s

/-- JS `x || d` for an optional integer: the default replaces an absent
value or `0` (falsy). -/
def orDefaultInt : Option Int → Int → Int
  | none, d => d
  | some q, d => if q == 0 then d else q

/-- One step of JS `String.prototype.includes`: does the haystack start with
the needle? -/
def startsWithCh : List Char → List Char → Bool
  | _, [] => true
  | [], _ :: _ => false
  | c :: cs, d :: ds => c == d && startsWithCh cs ds

/-- JS `String.prototype.includes` on character lists. -/
def containsCh : List Char → List Char → Bool
  | [], needle => needle.isEmpty
  | c :: rest, needle => startsWithCh (c :: rest) needle || containsCh rest needle

/-- JS `hay.includes(needle)`. -/
def strIncludes (hay needle : String) : Bool :=
  containsCh hay.data needle.data

/-- JS `s.toLowerCase()` (per-character lowering). -/
def lowerStr (s : String) : String :=
  String.mk (s.data.map Char.toLower)

/-! ### Todo data model (todos.routes.ts) -/

/-- The 7 todo type variants of `TodoType` in todos.routes.ts. -/
inductive TodoType where
  | task
  | goal
  | habit
  | reminder
  | shopping
  | idea
  | bookmark
  deriving DecidableEq, Repr

/-- String form of a stored todo type (the JSON value). -/
def TodoType.str : TodoType → String
  | .task => "task"
  | .goal => "goal"
  | .habit => "habit"
  | .reminder => "reminder"
  | .shopping => "shopping"
  | .idea => "idea"
  | .bookmark => "bookmark"

/-- The `validTypes` array of the POST handler. -/
def validTypes : List String :=
  ["task", "goal", "habit", "reminder", "shopping", "idea", "bookmark"]

/-- The 4 priority values of the TS `Priority` union type.  The runtime
never checks stored priorities against this list. -/
def validPriorities : List String :=
  ["low", "medium", "high", "urgent"]

/-- Resolution of a validated type string to the `TodoType` variant;
`none` when the string is not in `validTypes`. -/
def parseTodoType (s : String) : Option TodoType :=
  if s == "task" then some .task
  else if s == "goal" then some .goal
  else if s == "habit" then some .habit
  else if s == "reminder" then some .reminder
  else if s == "shopping" then some .shopping
  else if s == "idea" then some .idea
  else if s == "bookmark" then some .bookmark
  else none

/-- The stored `Todo` record (the `Todo` interface of todos.routes.ts).
`priority` is a raw string because the handlers never validate it; the four
type-specific fields are `Option (Option _)` (key presence / value). -/
structure Todo where
  id : String
  type : TodoType
  title : String
  description : String
  priority : String
  isCompleted : Bool
  dueDate : Option Nat
  tags : List String
  habitFrequency : Option (Option String) := none
  reminderTime : Option (Option String) := none
  url : Option (Option String) := none
  quantity : Option (Option Int) := none
  createdAt : Nat
  updatedAt : Nat
  completedAt : Option Nat
  deriving DecidableEq, Repr

/-- Body of `POST /api/todos` (destructured fields of `req.body`). -/
structure CreateTodoReq where
  type : Option String := none
  title : Option String := none
  description : Option String := none
  priority : Option String := none
  dueDate : Option Nat := none
  tags : Option (List String) := none
  habitFrequency : Option String := none
  reminderTime : Option String := none
  url : Option String := none
  quantity : Option Int := none
  deriving DecidableEq, Repr

/-- Outcome of the create handler: a 400 response with its error message, or
a 201 response carrying the created todo. -/
inductive CreateResult where
  | badRequest (message : String)
  | created (todo : Todo)
  deriving DecidableEq, Repr

/-- The body of `router.post('/')` in todos.routes.ts, up to the push: the
title falsiness check, the `validTypes` check, and construction of the new
todo.  `t1` and `t2` are the two `new Date()` reads (createdAt, updatedAt). -/
def createTodo (req : CreateTodoReq) (newId : String) (t1 t2 : Nat) : CreateResult :=
  if strFalsy req.title then .badRequest "Title is required"
  else
    let tyStr := req.type.getD "task"
    match parseTodoType tyStr with
    | none => .badRequest ("Invalid type. Must be one of: " ++ String.intercalate ", " validTypes)
    | some ty =>
        .created
          { id := newId
            type := ty
            title := req.title.getD ""
            description := req.description.getD ""
            priority := req.priority.getD "medium"
            isCompleted := false
            dueDate := req.dueDate
            tags := req.tags.getD []
            habitFrequency :=
              if ty = .habit then some (some (orDefaultStr req.habitFrequency "daily")) else none
            reminderTime := if ty = .reminder then some req.reminderTime else none
            url := if ty = .bookmark then some req.url else none
            quantity :=
              if ty = .shopping then some (some (orDefaultInt req.quantity 1)) else none
            createdAt := t1
            updatedAt := t2
            completedAt := none }

/-- `POST /api/todos` as a transformer of the `todos` array: the created
todo is pushed onto the collection, an error response leaves it unchanged. -/
def postTodos (req : CreateTodoReq) (newId : String) (t1 t2 : Nat)
    (todos : List Todo) : CreateResult × List Todo :=
  match createTodo req newId t1 t2 with
  | .badRequest m => (.badRequest m, todos)
  | .created t => (.created t, todos ++ [t])

/-- Body of `PUT /api/todos/:id` (the destructured fields; the handler never
reads `type` from the body).  `dueDate` distinguishes a supplied `null`
(`some none`) from an absent property (`none`). -/
structure UpdateTodoReq where
  title : Option String := none
  description : Option String := none
  priority : Option String := none
  isCompleted : Option Bool := none
  dueDate : Option (Option Nat) := none
  tags : Option (List String) := none
  habitFrequency : Option String := none
  reminderTime : Option String := none
  url : Option String := none
  quantity : Option Int := none
  deriving DecidableEq, Repr

/-- The merge performed by `PUT /api/todos/:id` on the found todo, with
`now` the handler's `new Date()` read: the completion special-case computes
`completedAt` first, then each supplied field overwrites the old one, and
`updatedAt` is always refreshed. -/
def applyUpdate (req : UpdateTodoReq) (old : Todo) (now : Nat) : Todo :=
  let completedAt :=
    match req.isCompleted with
    | none => old.completedAt
    | some b =>
        if b && !old.isCompleted then some now
        else if !b then none
        else old.completedAt
  { old with
    title := req.title.getD old.title
    description := req.description.getD old.description
    priority := req.priority.getD old.priority
    isCompleted := req.isCompleted.getD old.isCompleted
    dueDate := req.dueDate.getD old.dueDate
    tags := req.tags.getD old.tags
    habitFrequency :=
      match req.habitFrequency with
      | none => old.habitFrequency
      | some v => some (some v)
    reminderTime :=
      match req.reminderTime with
      | none => old.reminderTime
      | some v => some (some v)
    url :=
      match req.url with
      | none => old.url
      | some v => some (some v)
    quantity :=
      match req.quantity with
      | none => old.quantity
      | some v => some (some v)
    completedAt := completedAt
    updatedAt := now }

/-- Outcome of a by-id handler: 404, or 200 with the affected todo. -/
inductive UpdateResult where
  | notFound
  | ok (todo : Todo)
  deriving DecidableEq, Repr

/-- `PUT /api/todos/:id` on the collection: `findIndex` locates the first
todo with the requested id and it is replaced in place by the merge. -/
def putTodos (id : String) (req : UpdateTodoReq) (now : Nat) :
    List Todo → UpdateResult × List Todo
  | [] => (.notFound, [])
  | t :: ts =>
      if t.id == id then (.ok (applyUpdate req t now), applyUpdate req t now :: ts)
      else
        let p := putTodos id req now ts
        (p.1, t :: p.2)

/-- The flip performed by `PATCH /api/todos/:id/complete` on the found
todo: `isCompleted` is negated, `completedAt` becomes the current instant
when the new state is completed and `null` otherwise, `updatedAt`
refreshes. -/
def toggleTodo (old : Todo) (now : Nat) : Todo :=
  let newCompleted := !old.isCompleted
  { old with
    isCompleted := newCompleted
    completedAt := if newCompleted then some now else none
    updatedAt := now }

/-- `PATCH /api/todos/:id/complete` on the collection. -/
def patchComplete (id : String) (now : Nat) : List Todo → UpdateResult × List Todo
  | [] => (.notFound, [])
  | t :: ts =>
      if t.id == id then (.ok (toggleTodo t now), toggleTodo t now :: ts)
      else
        let p := patchComplete id now ts
        (p.1, t :: p.2)

/-- `DELETE /api/todos/:id` on the collection: `splice` removes the first
todo with the requested id. -/
def deleteTodos (id : String) : List Todo → UpdateResult × List Todo
  | [] => (.notFound, [])
  | t :: ts =>
      if t.id == id then (.ok t, ts)
      else
        let p := deleteTodos id ts
        (p.1, t :: p.2)

/-! ### GET /api/todos: query, filter pipeline, sort comparator, meta -/

/-- Query string of `GET /api/todos`.  `none` stands for an absent
parameter; the due-date bounds carry the parsed timestamp of a non-empty
parameter (the handler guards both with JS truthiness, so an empty string
behaves like an absent one). -/
structure TodosQuery where
  type : Option String := none
  priority : Option String := none
  completed : Option String := none
  tag : Option String := none
  search : Option String := none
  dueBefore : Option Nat := none
  dueAfter : Option Nat := none
  deriving DecidableEq, Repr

/-- JS truthiness of a query parameter (`if (type)` etc.): present and
non-empty. -/
def qTruthy (o : Option String) : Bool :=
  !(strFalsy o)

/-- `if (type) filtered = filtered.filter(...)` of `router.get('/')`. -/
def stageType (q : TodosQuery) (l : List Todo) : List Todo :=
  if qTruthy q.type then l.filter (fun t => t.type.str == q.type.getD "") else l

/-- `if (priority) ...` filter stage. -/
def stagePriority (q : TodosQuery) (l : List Todo) : List Todo :=
  if qTruthy q.priority then l.filter (fun t => t.priority == q.priority.getD "") else l

/-- `if (completed !== undefined) ...` filter stage: the parameter string is
compared with the literal `"true"`. -/
def stageCompleted (q : TodosQuery) (l : List Todo) : List Todo :=
  if q.completed.isSome then
    l.filter (fun t => t.isCompleted == (q.completed.getD "" == "true"))
  else l

/-- `if (tag) ...` filter stage (exact tag membership). -/
def stageTag (q : TodosQuery) (l : List Todo) : List Todo :=
  if qTruthy q.tag then l.filter (fun t => t.tags.contains (q.tag.getD "")) else l

/-- `if (search) ...` filter stage (case-insensitive substring match on
title or description). -/
def stageSearch (q : TodosQuery) (l : List Todo) : List Todo :=
  if qTruthy q.search then
    l.filter (fun t =>
      strIncludes (lowerStr t.title) (lowerStr (q.search.getD "")) ||
      strIncludes (lowerStr t.description) (lowerStr (q.search.getD "")))
  else l

/-- `if (dueBefore) ...` filter stage: a null `dueDate` fails the filter. -/
def stageDueBefore (q : TodosQuery) (l : List Todo) : List Todo :=
  match q.dueBefore with
  | none => l
  | some d => l.filter (fun t => match t.dueDate with | some dd => decide (dd ≤ d) | none => false)

/-- `if (dueAfter) ...` filter stage: a null `dueDate` fails the filter. -/
def stageDueAfter (q : TodosQuery) (l : List Todo) : List Todo :=
  match q.dueAfter with
  | none => l
  | some d => l.filter (fun t => match t.dueDate with | some dd => decide (d ≤ dd) | none => false)

/-- The seven sequential filters of `router.get('/')`, in source order. -/
def applyFilters (q : TodosQuery) (todos : List Todo) : List Todo :=
  stageDueAfter q (stageDueBefore q (stageSearch q (stageTag q
    (stageCompleted q (stagePriority q (stageType q todos))))))

/-- The `priorityOrder` lookup object of the sort; `none` is the
`undefined` result for a string outside the four keys. -/
def priorityOrder (p : String) : Option Nat :=
  if p == "urgent" then some 0
  else if p == "high" then some 1
  else if p == "medium" then some 2
  else if p == "low" then some 3
  else none

/-- The JS sort comparator of `router.get('/')` as a partial number:
`none` models the `NaN` produced when exactly one of the two priorities is
missing from `priorityOrder` (subtraction involving `undefined`). -/
def todoCmp (a b : Todo) : Option Int :=
  if a.isCompleted != b.isCompleted then some (if a.isCompleted then 1 else -1)
  else
    let pa := priorityOrder a.priority
    let pb := priorityOrder b.priority
    if pa != pb then
      match pa, pb with
      | some x, some y => some ((x : Int) - (y : Int))
      | _, _ => none
    else
      match a.dueDate, b.dueDate with
      | some da, some db => some ((da : Int) - (db : Int))
      | some _, none => some (-1)
      | none, some _ => some 1
      | none, none => some 0

/-- "a may come no later than b" for the comparator: its value is a number
that is at most 0 (`NaN ≤ 0` is false in JS). -/
def todoLEb (a b : Todo) : Bool :=
  match todoCmp a b with
  | some k => decide (k ≤ 0)
  | none => false

/-- The comparator's non-strict order as a proposition. -/
def todoLE (a b : Todo) : Prop :=
  todoLEb a b = true

instance : DecidableRel todoLE := fun a b => by
  unfold todoLE
  infer_instance

/-- `filtered.sort(comparator)`: `Array.prototype.sort` is a stable sort,
modelled as insertion sort over the comparator's non-strict order. -/
def sortTodos (l : List Todo) : List Todo :=
  List.insertionSort todoLE l

/-- The `byType` meta object: one count per type over the filtered items. -/
structure ByType where
  task : Nat
  goal : Nat
  habit : Nat
  reminder : Nat
  shopping : Nat
  idea : Nat
  bookmark : Nat
  deriving DecidableEq, Repr

/-- The `meta` object of the list response, computed over the filtered
(and sorted) result set. -/
structure TodosMeta where
  total : Nat
  byType : ByType
  completed : Nat
  pending : Nat
  deriving DecidableEq, Repr

/-- The `meta` computation of `router.get('/')`, applied to the filtered
result set. -/
def metaOf (filtered : List Todo) : TodosMeta :=
  { total := filtered.length
    byType :=
      { task := (filtered.filter (fun t => t.type == .task)).length
        goal := (filtered.filter (fun t => t.type == .goal)).length
        habit := (filtered.filter (fun t => t.type == .habit)).length
        reminder := (filtered.filter (fun t => t.type == .reminder)).length
        shopping := (filtered.filter (fun t => t.type == .shopping)).length
        idea := (filtered.filter (fun t => t.type == .idea)).length
        bookmark := (filtered.filter (fun t => t.type == .bookmark)).length }
    completed := (filtered.filter (fun t => t.isCompleted)).length
    pending := (filtered.filter (fun t => !t.isCompleted)).length }

/-- `GET /api/todos`: filter, sort, and the meta block over the result. -/
def listTodos (q : TodosQuery) (todos : List Todo) : List Todo × TodosMeta :=
  let filtered := sortTodos (applyFilters q todos)
  (filtered, metaOf filtered)

/-! ### Notes data model (notes.routes.ts) -/

/-- The stored `Note` record of notes.routes.ts. -/
structure Note where
  id : String
  title : String
  content : String
  tags : List String
  isPinned : Bool
  createdAt : Nat
  updatedAt : Nat
  deriving DecidableEq, Repr

/-- Body of `POST /api/notes`. -/
structure CreateNoteReq where
  title : Option String := none
  content : Option String := none
  tags : Option (List String) := none
  isPinned : Option Bool := none
  deriving DecidableEq, Repr

/-- Outcome of the note create handler. -/
inductive NoteResult where
  | badRequest (message : String)
  | ok (note : Note)
  deriving DecidableEq, Repr

/-- Body of `router.post('/')` in notes.routes.ts: the title falsiness
check and construction of the note; `t1`, `t2` are its two `new Date()`
reads (createdAt, updatedAt). -/
def createNote (req : CreateNoteReq) (newId : String) (t1 t2 : Nat) : NoteResult :=
  if strFalsy req.title then .badRequest "Title is required"
  else
    .ok
      { id := newId
        title := req.title.getD ""
        content := req.content.getD ""
        tags := req.tags.getD []
        isPinned := req.isPinned.getD false
        createdAt := t1
        updatedAt := t2 }

/-- `POST /api/notes` as a transformer of the `notes` array. -/
def postNotes (req : CreateNoteReq) (newId : String) (t1 t2 : Nat)
    (notes : List Note) : NoteResult × List Note :=
  match createNote req newId t1 t2 with
  | .badRequest m => (.badRequest m, notes)
  | .ok n => (.ok n, notes ++ [n])

/-- Body of `PUT /api/notes/:id`. -/
structure UpdateNoteReq where
  title : Option String := none
  content : Option String := none
  tags : Option (List String) := none
  isPinned : Option Bool := none
  deriving DecidableEq, Repr

/-- The merge of `PUT /api/notes/:id` on the found note. -/
def applyNoteUpdate (req : UpdateNoteReq) (old : Note) (now : Nat) : Note :=
  { old with
    title := req.title.getD old.title
    content := req.content.getD old.content
    tags := req.tags.getD old.tags
    isPinned := req.isPinned.getD old.isPinned
    updatedAt := now }

/-- Outcome of a by-id note handler. -/
inductive NoteUpdateResult where
  | notFound
  | ok (note : Note)
  deriving DecidableEq, Repr

/-- `PUT /api/notes/:id` on the collection. -/
def putNotes (id : String) (req : UpdateNoteReq) (now : Nat) :
    List Note → NoteUpdateResult × List Note
  | [] => (.notFound, [])
  | n :: ns =>
      if n.id == id then (.ok (applyNoteUpdate req n now), applyNoteUpdate req n now :: ns)
      else
        let p := putNotes id req now ns
        (p.1, n :: p.2)

/-- `DELETE /api/notes/:id` on the collection. -/
def deleteNotes (id : String) : List Note → NoteUpdateResult × List Note
  | [] => (.notFound, [])
  | n :: ns =>
      if n.id == id then (.ok n, ns)
      else
        let p := deleteNotes id ns
        (p.1, n :: p.2)

/-! ### Reachable states -/

/-- Todo collections reachable from the empty initial array by any sequence
of create, update, toggle-completion and delete requests, with arbitrary
bodies, ids and clock reads. -/
inductive Reachable : List Todo → Prop
  | init : Reachable []
  | create (req : CreateTodoReq) (newId : String) (t1 t2 : Nat) {l : List Todo} :
      Reachable l → Reachable (postTodos req newId t1 t2 l).2
  | update (id : String) (req : UpdateTodoReq) (now : Nat) {l : List Todo} :
      Reachable l → Reachable (putTodos id req now l).2
  | toggle (id : String) (now : Nat) {l : List Todo} :
      Reachable l → Reachable (patchComplete id now l).2
  | del (id : String) {l : List Todo} :
      Reachable l → Reachable (deleteTodos id l).2

/-- Note collections reachable from the empty initial array, together with
a lower bound on all future clock reads: each handler's reads are at least
the bound of the preceding state and successive reads inside one handler
are monotone. -/
inductive ReachableN : List Note → Nat → Prop
  | init : ReachableN [] 0
  | create (req : CreateNoteReq) (newId : String) (t1 t2 : Nat) {l : List Note} {c : Nat} :
      ReachableN l c → c ≤ t1 → t1 ≤ t2 → ReachableN (postNotes req newId t1 t2 l).2 t2
  | update (id : String) (req : UpdateNoteReq) (now : Nat) {l : List Note} {c : Nat} :
      ReachableN l c → c ≤ now → ReachableN (putNotes id req now l).2 now
  | del (id : String) {l : List Note} {c : Nat} :
      ReachableN l c → ReachableN (deleteNotes id l).2 c

/-! ### Spec-side definitions

These follow the specification's words rather than the source, to be
compared with the source-derived definitions above. -/

/-- Priority rank named by the spec: urgent=0, high=1, medium=2, low=3
(strings outside the catalogue get an arbitrary sink rank). -/
def specRank (p : String) : Nat :=
  if p == "urgent" then 0
  else if p == "high" then 1
  else if p == "medium" then 2
  else if p == "low" then 3
  else 4

/-- Spec's due-date order: ascending by date, items lacking a due date
after all items that have one. -/
def dueLE : Option Nat → Option Nat → Bool
  | some a, some b => decide (a ≤ b)
  | some _, none => true
  | none, some _ => false
  | none, none => true

/-- The list order stated by the spec: every incomplete todo before every
completed one; within equal completion state ascending by priority rank;
within equal priority ascending by due date with null due dates last. -/
def specLEb (a b : Todo) : Bool :=
  if a.isCompleted != b.isCompleted then !a.isCompleted
  else if specRank a.priority != specRank b.priority then
    decide (specRank a.priority < specRank b.priority)
  else dueLE a.dueDate b.dueDate

/-- Propositional form of `specLEb`. -/
def specLE (a b : Todo) : Prop :=
  specLEb a b = true

instance : DecidableRel specLE := fun a b => by
  unfold specLE
  infer_instance

/-- Rank of a todo for the sort: completion bit, priority rank, and the
due-date key split into a null flag and the date.  Two todos tie under the
comparator exactly when their ranks coincide. -/
def flatKey (t : Todo) : Nat × Nat × Nat × Nat :=
  ( if t.isCompleted then 1 else 0
  , specRank t.priority
  , match t.dueDate with | some _ => 0 | none => 1
  , match t.dueDate with | some d => d | none => 0 )

/-- Lexicographic order on sort ranks. -/
def keyLE (x y : Nat × Nat × Nat × Nat) : Bool :=
  if x.1 ≠ y.1 then decide (x.1 < y.1)
  else if x.2.1 ≠ y.2.1 then decide (x.2.1 < y.2.1)
  else if x.2.2.1 ≠ y.2.2.1 then decide (x.2.2.1 < y.2.2.1)
  else decide (x.2.2.2 ≤ y.2.2.2)

/-- The conjunctive filter predicate stated by the spec: a supplied
(non-empty) filter must match exactly; `completed` compares against the
parsed boolean; the search is a case-insensitive substring match on title
or description; a null due date fails either due-date bound. -/
def specMatches (q : TodosQuery) (t : Todo) : Bool :=
  (match q.type with
   | some s => if s == "" then true else t.type.str == s
   | none => true) &&
  (match q.priority with
   | some s => if s == "" then true else t.priority == s
   | none => true) &&
  (match q.completed with
   | some s => t.isCompleted == (s == "true")
   | none => true) &&
  (match q.tag with
   | some s => if s == "" then true else t.tags.contains s
   | none => true) &&
  (match q.search with
   | some s =>
       if s == "" then true
       else
         strIncludes (lowerStr t.title) (lowerStr s) ||
         strIncludes (lowerStr t.description) (lowerStr s)
   | none => true) &&
  (match q.dueBefore with
   | some d => (match t.dueDate with | some dd => decide (dd ≤ d) | none => false)
   | none => true) &&
  (match q.dueAfter with
   | some d => (match t.dueDate with | some dd => decide (d ≤ dd) | none => false)
   | none => true)

/-! ### Concrete fixtures -/

/-- Todo A of the spec's sort example: pending, high, due 2025-01-01
(encoded as instant 1). -/
def todoA : Todo :=
  { id := "a", type := .task, title := "A", description := "", priority := "high",
    isCompleted := false, dueDate := some 1, tags := [],
    createdAt := 0, updatedAt := 0, completedAt := none }

/-- Todo B of the sort example: pending, high, due 2025-01-02 (instant 2). -/
def todoB : Todo :=
  { id := "b", type := .task, title := "B", description := "", priority := "high",
    isCompleted := false, dueDate := some 2, tags := [],
    createdAt := 0, updatedAt := 0, completedAt := none }

/-- Todo C of the sort example: pending, urgent, no due date. -/
def todoC : Todo :=
  { id := "c", type := .task, title := "C", description := "", priority := "urgent",
    isCompleted := false, dueDate := none, tags := [],
    createdAt := 0, updatedAt := 0, completedAt := none }

/-- Todo D of the sort example: completed, urgent, due 2025-01-01. -/
def todoD : Todo :=
  { id := "d", type := .task, title := "D", description := "", priority := "urgent",
    isCompleted := true, dueDate := some 1, tags := [],
    createdAt := 0, updatedAt := 0, completedAt := some 0 }

/-- A minimal valid create request. -/
def reqPlain : CreateTodoReq := { title := some "x" }

/-- The one-element collection created by `reqPlain` (a pending task). -/
def statePending : List Todo := (postTodos reqPlain "a" 0 0 []).2

/-- `statePending` after completing the todo at instant 1. -/
def stateDone : List Todo := (patchComplete "a" 1 statePending).2

/-- The single element of `stateDone`: the created todo, completed at
instant 1. -/
def doneTodo : Todo :=
  { id := "a", type := .task, title := "x", description := "", priority := "medium",
    isCompleted := true, dueDate := none, tags := [],
    createdAt := 0, updatedAt := 1, completedAt := some 1 }

/-- The todo created by a habit request with no habitFrequency supplied. -/
def habitTodo : Todo :=
  { id := "h1", type := .habit, title := "h", description := "", priority := "medium",
    isCompleted := false, dueDate := none, tags := [],
    habitFrequency := some (some "daily"),
    createdAt := 0, updatedAt := 0, completedAt := none }

/-- The note created by a title-only request with both clock reads at 5. -/
def noteN : Note :=
  { id := "n1", title := "n", content := "", tags := [], isPinned := false,
    createdAt := 5, updatedAt := 5 }

/-! ### Order lemmas for the sort -/

theorem keyLE_total (x y : Nat × Nat × Nat × Nat) : keyLE x y = true ∨ keyLE y x = true := by
  obtain ⟨a, b, c, d⟩ := x
  obtain ⟨a2, b2, c2, d2⟩ := y
  simp only [keyLE]
  split_ifs <;> simp_all <;> try omega

theorem keyLE_trans {x y z : Nat × Nat × Nat × Nat}
    (h1 : keyLE x y = true) (h2 : keyLE y z = true) : keyLE x z = true := by
  obtain ⟨a, b, c, d⟩ := x
  obtain ⟨a2, b2, c2, d2⟩ := y
  obtain ⟨a3, b3, c3, d3⟩ := z
  simp only [keyLE] at h1 h2 ⊢
  split_ifs at h1 h2 ⊢ <;> simp_all <;> omega

/-- The spec order is the lexicographic order on sort ranks. -/
theorem specLEb_eq_keyLE (a b : Todo) : specLEb a b = keyLE (flatKey a) (flatKey b) := by
  obtain ⟨_, _, _, _, pa, ca, da, _, _, _, _, _, _, _, _⟩ := a
  obtain ⟨_, _, _, _, pb, cb, db, _, _, _, _, _, _, _, _⟩ := b
  cases ca <;> cases cb <;> cases da <;> cases db <;>
    by_cases hr : specRank pa = specRank pb <;>
      simp [specLEb, flatKey, keyLE, dueLE, hr]

instance : IsTotal Todo specLE := by
  constructor
  intro a b
  unfold specLE
  rw [specLEb_eq_keyLE, specLEb_eq_keyLE]
  exact keyLE_total (flatKey a) (flatKey b)

instance : IsTrans Todo specLE := by
  constructor
  intro a b c h1 h2
  unfold specLE at *
  rw [specLEb_eq_keyLE] at *
  exact keyLE_trans h1 h2

theorem keyLE_refl (x : Nat × Nat × Nat × Nat) : keyLE x x = true := by
  simp [keyLE]

/-- `priorityOrder` and `specRank` agree on the four catalogued priorities. -/
theorem priorityOrder_eq_specRank {p : String} {r : Nat} (h : priorityOrder p = some r) :
    specRank p = r := by
  unfold priorityOrder at h
  unfold specRank
  split_ifs at h ⊢ <;> simp_all

/-- On todos whose priorities are in the catalogue, the source comparator's
non-strict order coincides with the spec's order. -/
theorem todoLEb_eq_specLEb {a b : Todo} (ha : (priorityOrder a.priority).isSome = true)
    (hb : (priorityOrder b.priority).isSome = true) : todoLEb a b = specLEb a b := by
  obtain ⟨ra, hra⟩ := Option.isSome_iff_exists.mp ha
  obtain ⟨rb, hrb⟩ := Option.isSome_iff_exists.mp hb
  have hsa := priorityOrder_eq_specRank hra
  have hsb := priorityOrder_eq_specRank hrb
  simp only [todoLEb, todoCmp, specLEb, hra, hrb, hsa, hsb]
  by_cases hcc : a.isCompleted = b.isCompleted
  · simp only [hcc, bne_self_eq_false, Bool.false_eq_true, if_false]
    by_cases hr : ra = rb
    · subst hr
      simp only [bne_self_eq_false, Bool.false_eq_true, if_false]
      cases a.dueDate <;> cases b.dueDate <;>
        simp [dueLE, decide_eq_decide] <;> omega
    · have hbne : (some ra != some rb) = true := by simpa using hr
      have hbne2 : (ra != rb) = true := by simpa using hr
      simp only [hbne, hbne2, if_true]
      simp [decide_eq_decide]
      omega
  · have hbne : (a.isCompleted != b.isCompleted) = true := by simpa using hcc
    simp only [hbne, if_true]
    cases a.isCompleted <;> simp

/-- `orderedInsert` only consults the relation on the inserted element and
members of the list. -/
theorem orderedInsert_congr {α : Type} (r s : α → α → Prop) [DecidableRel r] [DecidableRel s]
    (a : α) (l : List α) (h : ∀ b ∈ l, r a b ↔ s a b) :
    List.orderedInsert r a l = List.orderedInsert s a l := by
  induction l with
  | nil => rfl
  | cons b bs ih =>
      simp only [List.orderedInsert]
      by_cases hr : r a b
      · rw [if_pos hr, if_pos ((h b (List.mem_cons_self b bs)).mp hr)]
      · rw [if_neg hr, if_neg fun hs => hr ((h b (List.mem_cons_self b bs)).mpr hs),
          ih fun c hc => h c (List.mem_cons_of_mem b hc)]

/-- `insertionSort` only consults the relation on members of the list. -/
theorem insertionSort_congr {α : Type} (r s : α → α → Prop) [DecidableRel r] [DecidableRel s]
    (l : List α) (h : ∀ a ∈ l, ∀ b ∈ l, r a b ↔ s a b) :
    List.insertionSort r l = List.insertionSort s l := by
  induction l with
  | nil => rfl
  | cons a as ih =>
      simp only [List.insertionSort]
      rw [ih fun x hx y hy => h x (List.mem_cons_of_mem a hx) y (List.mem_cons_of_mem a hy)]
      exact orderedInsert_congr r s a _ fun b hb =>
        h a (List.mem_cons_self a as) b
          (List.mem_cons_of_mem a ((List.mem_insertionSort s).mp hb))

/-- On a collection of catalogued priorities the source sort coincides with
sorting by the spec's order. -/
theorem sortTodos_eq_spec {l : List Todo}
    (hv : ∀ t ∈ l, (priorityOrder t.priority).isSome = true) :
    sortTodos l = List.insertionSort specLE l := by
  unfold sortTodos
  refine insertionSort_congr todoLE specLE l fun a ha b hb => ?_
  unfold todoLE specLE
  rw [todoLEb_eq_specLEb (hv a ha) (hv b hb)]

/-- Two valid todos with the same sort rank tie under the comparator. -/
theorem todoLE_of_flatKey_eq {a b : Todo} (ha : (priorityOrder a.priority).isSome = true)
    (hb : (priorityOrder b.priority).isSome = true) (hk : flatKey a = flatKey b) :
    todoLE a b := by
  unfold todoLE
  rw [todoLEb_eq_specLEb ha hb, specLEb_eq_keyLE, hk]
  exact keyLE_refl (flatKey b)

/-- Stability of the source sort: the items of any fixed sort rank appear
in the output in exactly their stored order. -/
theorem filter_key_sortTodos {l : List Todo}
    (hv : ∀ t ∈ l, (priorityOrder t.priority).isSome = true) (k : Nat × Nat × Nat × Nat) :
    (sortTodos l).filter (fun t => decide (flatKey t = k)) =
      l.filter (fun t => decide (flatKey t = k)) := by
  set p : Todo → Bool := fun t => decide (flatKey t = k) with hp
  have hsub1 : List.Sublist (l.filter p) l := List.filter_sublist l
  have hpw : (l.filter p).Pairwise todoLE := by
    refine List.pairwise_of_forall_mem_list fun a haf b hbf => ?_
    have ha := List.mem_filter.mp haf
    have hb := List.mem_filter.mp hbf
    have hka : flatKey a = k := of_decide_eq_true ha.2
    have hkb : flatKey b = k := of_decide_eq_true hb.2
    exact todoLE_of_flatKey_eq (hv a ha.1) (hv b hb.1) (hka.trans hkb.symm)
  have h1 : List.Sublist (l.filter p) (sortTodos l) := List.sublist_insertionSort hpw hsub1
  have hfp : (l.filter p).filter p = l.filter p :=
    List.filter_eq_self.mpr fun a ha => (List.mem_filter.mp ha).2
  have h2 : List.Sublist (l.filter p) ((sortTodos l).filter p) := by
    have := h1.filter p
    rwa [hfp] at this
  have hperm : List.Perm ((sortTodos l).filter p) (l.filter p) :=
    (List.perm_insertionSort todoLE l).filter p
  exact (h2.eq_of_length hperm.length_eq.symm).symm

/-! ### Handler lemmas -/

/-- `PUT` hits the first todo carrying the requested id and replaces it in
place. -/
theorem putTodos_append (id : String) (req : UpdateTodoReq) (now : Nat)
    (pre : List Todo) (t : Todo) (post : List Todo)
    (hpre : ∀ u ∈ pre, (u.id == id) = false) (ht : (t.id == id) = true) :
    putTodos id req now (pre ++ t :: post) =
      (.ok (applyUpdate req t now), pre ++ applyUpdate req t now :: post) := by
  induction pre with
  | nil => simp [putTodos, ht]
  | cons u us ih =>
      have hu := hpre u (List.mem_cons_self u us)
      have ih2 := ih fun v hv => hpre v (List.mem_cons_of_mem u hv)
      simp only [List.cons_append, putTodos, hu, Bool.false_eq_true, if_false, List.append_eq]
      rw [ih2]

/-- `PATCH /complete` hits the first todo carrying the requested id and
replaces it in place by its toggled form. -/
theorem patchComplete_append (id : String) (now : Nat)
    (pre : List Todo) (t : Todo) (post : List Todo)
    (hpre : ∀ u ∈ pre, (u.id == id) = false) (ht : (t.id == id) = true) :
    patchComplete id now (pre ++ t :: post) =
      (.ok (toggleTodo t now), pre ++ toggleTodo t now :: post) := by
  induction pre with
  | nil => simp [patchComplete, ht]
  | cons u us ih =>
      have hu := hpre u (List.mem_cons_self u us)
      have ih2 := ih fun v hv => hpre v (List.mem_cons_of_mem u hv)
      simp only [List.cons_append, patchComplete, hu, Bool.false_eq_true, if_false, List.append_eq]
      rw [ih2]

/-- Inversion of a successful create: the stored fields of the new todo. -/
theorem createTodo_created_inv {req : CreateTodoReq} {newId : String} {t1 t2 : Nat} {t : Todo}
    (h : createTodo req newId t1 t2 = .created t) :
    t.id = newId ∧
    parseTodoType (req.type.getD "task") = some t.type ∧
    t.title = req.title.getD "" ∧
    t.description = req.description.getD "" ∧
    t.priority = req.priority.getD "medium" ∧
    t.isCompleted = false ∧
    t.dueDate = req.dueDate ∧
    t.tags = req.tags.getD [] ∧
    t.habitFrequency =
      (if t.type = .habit then some (some (orDefaultStr req.habitFrequency "daily")) else none) ∧
    t.reminderTime = (if t.type = .reminder then some req.reminderTime else none) ∧
    t.url = (if t.type = .bookmark then some req.url else none) ∧
    t.quantity = (if t.type = .shopping then some (some (orDefaultInt req.quantity 1)) else none) ∧
    t.createdAt = t1 ∧ t.updatedAt = t2 ∧ t.completedAt = none := by
  unfold createTodo at h
  by_cases hf : strFalsy req.title = true
  · simp [hf] at h
  · rw [if_neg hf] at h
    cases hp : parseTodoType (req.type.getD "task") with
    | none => simp [hp] at h
    | some ty =>
        simp only [hp] at h
        cases h
        simp [hp]

/-- Elements of the collection after a create: the old ones, plus the new
todo when creation succeeded. -/
theorem mem_postTodos {req : CreateTodoReq} {newId : String} {t1 t2 : Nat} {l : List Todo} {t : Todo}
    (h : t ∈ (postTodos req newId t1 t2 l).2) :
    t ∈ l ∨ createTodo req newId t1 t2 = .created t := by
  unfold postTodos at h
  cases hc : createTodo req newId t1 t2 with
  | badRequest m => rw [hc] at h; exact Or.inl h
  | created nt =>
      rw [hc] at h
      rcases List.mem_append.mp h with hmem | hmem
      · exact Or.inl hmem
      · rcases List.mem_singleton.mp hmem with rfl
        exact Or.inr rfl

/-- Elements of the collection after an update: old ones or the merge of an
old one. -/
theorem mem_putTodos {id : String} {req : UpdateTodoReq} {now : Nat} {l : List Todo} {t : Todo}
    (h : t ∈ (putTodos id req now l).2) :
    t ∈ l ∨ ∃ old ∈ l, t = applyUpdate req old now := by
  induction l with
  | nil => simp [putTodos] at h
  | cons u us ih =>
      simp only [putTodos] at h
      by_cases hu : (u.id == id) = true
      · rw [if_pos hu] at h
        rcases List.mem_cons.mp h with rfl | hmem
        · exact Or.inr ⟨u, List.mem_cons_self u us, rfl⟩
        · exact Or.inl (List.mem_cons_of_mem u hmem)
      · rw [if_neg hu] at h
        rcases List.mem_cons.mp h with rfl | hmem
        · exact Or.inl (List.mem_cons_self t us)
        · rcases ih hmem with hold | ⟨old, holdm, rfl⟩
          · exact Or.inl (List.mem_cons_of_mem u hold)
          · exact Or.inr ⟨old, List.mem_cons_of_mem u holdm, rfl⟩

/-- Elements of the collection after a toggle: old ones or the toggled form
of an old one. -/
theorem mem_patchComplete {id : String} {now : Nat} {l : List Todo} {t : Todo}
    (h : t ∈ (patchComplete id now l).2) :
    t ∈ l ∨ ∃ old ∈ l, t = toggleTodo old now := by
  induction l with
  | nil => simp [patchComplete] at h
  | cons u us ih =>
      simp only [patchComplete] at h
      by_cases hu : (u.id == id) = true
      · rw [if_pos hu] at h
        rcases List.mem_cons.mp h with rfl | hmem
        · exact Or.inr ⟨u, List.mem_cons_self u us, rfl⟩
        · exact Or.inl (List.mem_cons_of_mem u hmem)
      · rw [if_neg hu] at h
        rcases List.mem_cons.mp h with rfl | hmem
        · exact Or.inl (List.mem_cons_self t us)
        · rcases ih hmem with hold | ⟨old, holdm, rfl⟩
          · exact Or.inl (List.mem_cons_of_mem u hold)
          · exact Or.inr ⟨old, List.mem_cons_of_mem u holdm, rfl⟩

/-- Deletion only removes elements. -/
theorem mem_deleteTodos {id : String} {l : List Todo} {t : Todo}
    (h : t ∈ (deleteTodos id l).2) : t ∈ l := by
  induction l with
  | nil => simp [deleteTodos] at h
  | cons u us ih =>
      simp only [deleteTodos] at h
      by_cases hu : (u.id == id) = true
      · rw [if_pos hu] at h
        exact List.mem_cons_of_mem u h
      · rw [if_neg hu] at h
        rcases List.mem_cons.mp h with rfl | hmem
        · exact List.mem_cons_self t us
        · exact List.mem_cons_of_mem u (ih hmem)

/-! ### Completion invariant -/

/-- The update merge preserves the completion/timestamp invariant. -/
theorem completionOk_applyUpdate {old : Todo} (req : UpdateTodoReq) (now : Nat)
    (h : old.completedAt ≠ none ↔ old.isCompleted = true) :
    (applyUpdate req old now).completedAt ≠ none ↔
      (applyUpdate req old now).isCompleted = true := by
  unfold applyUpdate
  cases hic : req.isCompleted with
  | none => simpa using h
  | some b => cases b <;> cases hco : old.isCompleted <;> simp_all

/-- The toggle re-establishes the completion/timestamp invariant outright. -/
theorem completionOk_toggleTodo (old : Todo) (now : Nat) :
    (toggleTodo old now).completedAt ≠ none ↔ (toggleTodo old now).isCompleted = true := by
  unfold toggleTodo
  cases old.isCompleted <;> simp

/-- Every reachable todo collection satisfies the completion invariant:
`completedAt` is non-null exactly on the completed todos. -/
theorem reachable_completionOk {l : List Todo} (h : Reachable l) :
    ∀ t ∈ l, t.completedAt ≠ none ↔ t.isCompleted = true := by
  induction h with
  | init => intro t ht; simp at ht
  | create req newId t1 t2 hr ih =>
      intro t ht
      rcases mem_postTodos ht with hmem | hc
      · exact ih t hmem
      · obtain ⟨-, -, -, -, -, hic, -, -, -, -, -, -, -, -, hca⟩ := createTodo_created_inv hc
        rw [hca, hic]
        simp
  | update id req now hr ih =>
      intro t ht
      rcases mem_putTodos ht with hmem | ⟨old, holdm, rfl⟩
      · exact ih t hmem
      · exact completionOk_applyUpdate req now (ih old holdm)
  | toggle id now hr ih =>
      intro t ht
      rcases mem_patchComplete ht with hmem | ⟨old, holdm, rfl⟩
      · exact ih t hmem
      · exact completionOk_toggleTodo old now
  | del id hr ih =>
      intro t ht
      exact ih t (mem_deleteTodos ht)

/-! ### Notes timestamp lemmas -/

/-- Inversion of a successful note create. -/
theorem createNote_ok_inv {req : CreateNoteReq} {newId : String} {t1 t2 : Nat} {n : Note}
    (h : createNote req newId t1 t2 = .ok n) :
    n.id = newId ∧ n.title = req.title.getD "" ∧ n.content = req.content.getD "" ∧
    n.tags = req.tags.getD [] ∧ n.isPinned = req.isPinned.getD false ∧
    n.createdAt = t1 ∧ n.updatedAt = t2 := by
  unfold createNote at h
  by_cases hf : strFalsy req.title = true
  · simp [hf] at h
  · rw [if_neg hf] at h
    cases h
    simp

/-- Elements after a note create. -/
theorem mem_postNotes {req : CreateNoteReq} {newId : String} {t1 t2 : Nat} {l : List Note} {n : Note}
    (h : n ∈ (postNotes req newId t1 t2 l).2) :
    n ∈ l ∨ createNote req newId t1 t2 = .ok n := by
  unfold postNotes at h
  cases hc : createNote req newId t1 t2 with
  | badRequest m => rw [hc] at h; exact Or.inl h
  | ok nn =>
      rw [hc] at h
      rcases List.mem_append.mp h with hmem | hmem
      · exact Or.inl hmem
      · rcases List.mem_singleton.mp hmem with rfl
        exact Or.inr rfl

/-- Elements after a note update. -/
theorem mem_putNotes {id : String} {req : UpdateNoteReq} {now : Nat} {l : List Note} {n : Note}
    (h : n ∈ (putNotes id req now l).2) :
    n ∈ l ∨ ∃ old ∈ l, n = applyNoteUpdate req old now := by
  induction l with
  | nil => simp [putNotes] at h
  | cons u us ih =>
      simp only [putNotes] at h
      by_cases hu : (u.id == id) = true
      · rw [if_pos hu] at h
        rcases List.mem_cons.mp h with rfl | hmem
        · exact Or.inr ⟨u, List.mem_cons_self u us, rfl⟩
        · exact Or.inl (List.mem_cons_of_mem u hmem)
      · rw [if_neg hu] at h
        rcases List.mem_cons.mp h with rfl | hmem
        · exact Or.inl (List.mem_cons_self n us)
        · rcases ih hmem with hold | ⟨old, holdm, rfl⟩
          · exact Or.inl (List.mem_cons_of_mem u hold)
          · exact Or.inr ⟨old, List.mem_cons_of_mem u holdm, rfl⟩

/-- Note deletion only removes elements. -/
theorem mem_deleteNotes {id : String} {l : List Note} {n : Note}
    (h : n ∈ (deleteNotes id l).2) : n ∈ l := by
  induction l with
  | nil => simp [deleteNotes] at h
  | cons u us ih =>
      simp only [deleteNotes] at h
      by_cases hu : (u.id == id) = true
      · rw [if_pos hu] at h
        exact List.mem_cons_of_mem u h
      · rw [if_neg hu] at h
        rcases List.mem_cons.mp h with rfl | hmem
        · exact List.mem_cons_self n us
        · exact List.mem_cons_of_mem u (ih hmem)

/-- Every reachable note satisfies `createdAt ≤ updatedAt`, and all its
timestamps are bounded by the state's clock. -/
theorem reachableN_timestamps {l : List Note} {c : Nat} (h : ReachableN l c) :
    ∀ n ∈ l, n.createdAt ≤ n.updatedAt ∧ n.updatedAt ≤ c := by
  induction h with
  | init => intro n hn; simp at hn
  | create req newId t1 t2 hr h1 h2 ih =>
      intro n hn
      rcases mem_postNotes hn with hmem | hc
      · have := ih n hmem
        omega
      · obtain ⟨-, -, -, -, -, hc1, hc2⟩ := createNote_ok_inv hc
        omega
  | update id req now hr h1 ih =>
      intro n hn
      rcases mem_putNotes hn with hmem | ⟨old, holdm, rfl⟩
      · have := ih n hmem
        constructor
        · exact this.1
        · omega
      · have := ih old holdm
        unfold applyNoteUpdate
        simp only
        constructor
        · omega
        · omega
  | del id hr ih =>
      intro n hn
      exact ih n (mem_deleteNotes hn)

/-! ### Filter membership lemmas (claim C4) -/

theorem mem_stageType {q : TodosQuery} {l : List Todo} {t : Todo} :
    t ∈ stageType q l ↔
      t ∈ l ∧ (match q.type with
        | some s => if s == "" then true else t.type.str == s
        | none => true) = true := by
  unfold stageType
  cases hq : q.type with
  | none => simp [qTruthy, strFalsy]
  | some s =>
      by_cases hs : (s == "") = true <;>
        simp [qTruthy, strFalsy, hs, List.mem_filter]

theorem mem_stagePriority {q : TodosQuery} {l : List Todo} {t : Todo} :
    t ∈ stagePriority q l ↔
      t ∈ l ∧ (match q.priority with
        | some s => if s == "" then true else t.priority == s
        | none => true) = true := by
  unfold stagePriority
  cases hq : q.priority with
  | none => simp [qTruthy, strFalsy]
  | some s =>
      by_cases hs : (s == "") = true <;>
        simp [qTruthy, strFalsy, hs, List.mem_filter]

theorem mem_stageCompleted {q : TodosQuery} {l : List Todo} {t : Todo} :
    t ∈ stageCompleted q l ↔
      t ∈ l ∧ (match q.completed with
        | some s => t.isCompleted == (s == "true")
        | none => true) = true := by
  unfold stageCompleted
  cases hq : q.completed with
  | none => simp
  | some s => simp [List.mem_filter]

theorem mem_stageTag {q : TodosQuery} {l : List Todo} {t : Todo} :
    t ∈ stageTag q l ↔
      t ∈ l ∧ (match q.tag with
        | some s => if s == "" then true else t.tags.contains s
        | none => true) = true := by
  unfold stageTag
  cases hq : q.tag with
  | none => simp [qTruthy, strFalsy]
  | some s =>
      by_cases hs : (s == "") = true <;>
        simp [qTruthy, strFalsy, hs, List.mem_filter]

theorem mem_stageSearch {q : TodosQuery} {l : List Todo} {t : Todo} :
    t ∈ stageSearch q l ↔
      t ∈ l ∧ (match q.search with
        | some s =>
            if s == "" then true
            else
              strIncludes (lowerStr t.title) (lowerStr s) ||
              strIncludes (lowerStr t.description) (lowerStr s)
        | none => true) = true := by
  unfold stageSearch
  cases hq : q.search with
  | none => simp [qTruthy, strFalsy]
  | some s =>
      by_cases hs : (s == "") = true <;>
        simp [qTruthy, strFalsy, hs, List.mem_filter]

theorem mem_stageDueBefore {q : TodosQuery} {l : List Todo} {t : Todo} :
    t ∈ stageDueBefore q l ↔
      t ∈ l ∧ (match q.dueBefore with
        | some d => (match t.dueDate with | some dd => decide (dd ≤ d) | none => false)
        | none => true) = true := by
  unfold stageDueBefore
  cases hq : q.dueBefore with
  | none => simp
  | some d => simp [List.mem_filter]

theorem mem_stageDueAfter {q : TodosQuery} {l : List Todo} {t : Todo} :
    t ∈ stageDueAfter q l ↔
      t ∈ l ∧ (match q.dueAfter with
        | some d => (match t.dueDate with | some dd => decide (d ≤ dd) | none => false)
        | none => true) = true := by
  unfold stageDueAfter
  cases hq : q.dueAfter with
  | none => simp
  | some d => simp [List.mem_filter]

/-- The filter pipeline keeps exactly the todos matching the spec's
conjunctive predicate. -/
theorem mem_applyFilters {q : TodosQuery} {l : List Todo} {t : Todo} :
    t ∈ applyFilters q l ↔ t ∈ l ∧ specMatches q t = true := by
  unfold applyFilters
  rw [mem_stageDueAfter, mem_stageDueBefore, mem_stageSearch, mem_stageTag,
    mem_stageCompleted, mem_stagePriority, mem_stageType]
  unfold specMatches
  simp only [Bool.and_eq_true]
  tauto

/-! ### Counting lemmas (claim C7) -/

/-- Every todo has exactly one of the seven types, so the per-type counts
partition the list. -/
theorem byType_counts_sum (l : List Todo) :
    (l.filter (fun t => t.type == .task)).length +
    (l.filter (fun t => t.type == .goal)).length +
    (l.filter (fun t => t.type == .habit)).length +
    (l.filter (fun t => t.type == .reminder)).length +
    (l.filter (fun t => t.type == .shopping)).length +
    (l.filter (fun t => t.type == .idea)).length +
    (l.filter (fun t => t.type == .bookmark)).length = l.length := by
  induction l with
  | nil => rfl
  | cons t ts ih =>
      cases ht : t.type <;>
        simp [List.filter_cons, ht, List.length_cons] <;> omega

/-- Completed and pending counts partition the list. -/
theorem completed_pending_sum (l : List Todo) :
    (l.filter (fun t => t.isCompleted)).length +
    (l.filter (fun t => !t.isCompleted)).length = l.length := by
  induction l with
  | nil => rfl
  | cons t ts ih =>
      cases ht : t.isCompleted <;>
        simp [List.filter_cons, ht, List.length_cons] <;> omega

/-! ### Type validation lemma (claim C5) -/

/-- The `validTypes.includes(type)` check fails exactly when resolution to
a `TodoType` fails. -/
theorem parseTodoType_eq_none_iff (s : String) :
    parseTodoType s = none ↔ ¬ s ∈ validTypes := by
  unfold parseTodoType validTypes
  split_ifs with h1 h2 h3 h4 h5 h6 h7 <;> simp_all [beq_iff_eq]

/-- `stateDone` is reachable. -/
theorem stateDone_reachable : Reachable stateDone :=
  Reachable.toggle "a" 1 (Reachable.create reqPlain "a" 0 0 Reachable.init)

/-! ### Claim theorems -/

/-- C1 counterexample: the claim fails for a todo that is initially
completed.  `stateDone` holds one completed todo; toggling it twice (at
instants 2 and 3) leaves `completedAt = some 3`, not null. -/
theorem c1_counterexample :
    stateDone.map Todo.isCompleted = [true] ∧
    ((patchComplete "a" 3 (patchComplete "a" 2 stateDone).2).2).map Todo.completedAt = [some 3] ∧
    some 3 ≠ (none : Option Nat) := by
  decide

/-- C1 (amended): toggling completion twice always restores the original
`isCompleted` value; `completedAt` returns to null exactly when the todo
was initially incomplete, and becomes the second toggle's (non-null)
instant when it was initially complete. -/
theorem c1_toggle_round_trip (pre post : List Todo) (t : Todo) (id : String) (n1 n2 : Nat)
    (hpre : ∀ u ∈ pre, (u.id == id) = false) (ht : (t.id == id) = true) :
    (patchComplete id n2 (patchComplete id n1 (pre ++ t :: post)).2).2 =
      pre ++ toggleTodo (toggleTodo t n1) n2 :: post ∧
    (toggleTodo (toggleTodo t n1) n2).isCompleted = t.isCompleted ∧
    (toggleTodo (toggleTodo t n1) n2).completedAt =
      (if t.isCompleted = true then some n2 else none) := by
  have h1 := patchComplete_append id n1 pre t post hpre ht
  have ht2 : ((toggleTodo t n1).id == id) = true := ht
  have h2 := patchComplete_append id n2 pre (toggleTodo t n1) post hpre ht2
  refine ⟨?_, ?_, ?_⟩
  · rw [h1]
    show (patchComplete id n2 (pre ++ toggleTodo t n1 :: post)).2 = _
    rw [h2]
  · unfold toggleTodo
    simp
  · unfold toggleTodo
    cases t.isCompleted <;> simp

/-- C1 witness: the round-trip theorem applied to the completed todo D
alone in the collection. -/
theorem c1_toggle_round_trip_witness :
    (patchComplete "d" 3 (patchComplete "d" 2 ([] ++ todoD :: [])).2).2 =
      [] ++ toggleTodo (toggleTodo todoD 2) 3 :: [] ∧
    (toggleTodo (toggleTodo todoD 2) 3).isCompleted = todoD.isCompleted ∧
    (toggleTodo (toggleTodo todoD 2) 3).completedAt =
      (if todoD.isCompleted = true then some 3 else none) :=
  c1_toggle_round_trip [] [] todoD "d" 2 3 (by intro u hu; simp at hu) (by decide)

/-- C2: in every reachable todo collection `completedAt` is non-null iff
`isCompleted` is true; moreover the update merge sets `completedAt` to the
current instant exactly on a false-to-true transition, keeps it on a
true-to-true write, clears it whenever `isCompleted` is set false, leaves
both untouched when `isCompleted` is omitted, and the toggle sets it to
the instant or null according to the new state. -/
theorem c2_completion_invariant :
    (∀ l, Reachable l → ∀ t ∈ l, t.completedAt ≠ none ↔ t.isCompleted = true) ∧
    (∀ (req : UpdateTodoReq) (old : Todo) (now : Nat),
      req.isCompleted = some true → old.isCompleted = false →
      (applyUpdate req old now).completedAt = some now ∧
      (applyUpdate req old now).isCompleted = true) ∧
    (∀ (req : UpdateTodoReq) (old : Todo) (now : Nat),
      req.isCompleted = some true → old.isCompleted = true →
      (applyUpdate req old now).completedAt = old.completedAt) ∧
    (∀ (req : UpdateTodoReq) (old : Todo) (now : Nat),
      req.isCompleted = some false →
      (applyUpdate req old now).completedAt = none ∧
      (applyUpdate req old now).isCompleted = false) ∧
    (∀ (req : UpdateTodoReq) (old : Todo) (now : Nat),
      req.isCompleted = none →
      (applyUpdate req old now).completedAt = old.completedAt ∧
      (applyUpdate req old now).isCompleted = old.isCompleted) ∧
    (∀ (old : Todo) (now : Nat),
      (toggleTodo old now).completedAt =
        (if old.isCompleted = true then none else some now) ∧
      (toggleTodo old now).isCompleted = !old.isCompleted) := by
  refine ⟨fun l hl => reachable_completionOk hl, ?_, ?_, ?_, ?_, ?_⟩
  · intro req old now h1 h2
    unfold applyUpdate
    simp [h1, h2]
  · intro req old now h1 h2
    unfold applyUpdate
    simp [h1, h2]
  · intro req old now h1
    unfold applyUpdate
    simp [h1]
  · intro req old now h1
    unfold applyUpdate
    simp [h1]
  · intro old now
    unfold toggleTodo
    cases h : old.isCompleted <;> simp

/-- C2 witness: the invariant at the reachable one-todo collection
`stateDone`, and the transition equations at concrete todos. -/
theorem c2_completion_invariant_witness :
    (doneTodo.completedAt ≠ none ↔ doneTodo.isCompleted = true) ∧
    ((applyUpdate { isCompleted := some true } todoA 5).completedAt = some 5 ∧
     (applyUpdate { isCompleted := some true } todoA 5).isCompleted = true) ∧
    ((applyUpdate { isCompleted := some false } todoD 5).completedAt = none ∧
     (applyUpdate { isCompleted := some false } todoD 5).isCompleted = false) :=
  ⟨c2_completion_invariant.1 stateDone stateDone_reachable doneTodo (by decide),
   c2_completion_invariant.2.1 { isCompleted := some true } todoA 5 rfl rfl,
   c2_completion_invariant.2.2.2.1 { isCompleted := some false } todoD 5 rfl⟩

/-- C3: the list endpoint returns the filtered todos sorted by the spec's
order — incomplete before completed, then ascending priority rank
(urgent=0, high=1, medium=2, low=3), then ascending due date with null due
dates last — as a permutation of the filtered set that keeps equal-rank
items in their stored relative order; on the spec's four-todo example the
output is C, A, B, D. -/
theorem c3_sort_order :
    (∀ (q : TodosQuery) (todos : List Todo),
      (listTodos q todos).1 = sortTodos (applyFilters q todos)) ∧
    (∀ l : List Todo, (∀ t ∈ l, (priorityOrder t.priority).isSome = true) →
      List.Sorted specLE (sortTodos l) ∧
      List.Perm (sortTodos l) l ∧
      (∀ k, (sortTodos l).filter (fun t => decide (flatKey t = k)) =
        l.filter (fun t => decide (flatKey t = k)))) ∧
    sortTodos [todoA, todoB, todoC, todoD] = [todoC, todoA, todoB, todoD] := by
  refine ⟨fun q todos => rfl, fun l hv => ⟨?_, List.perm_insertionSort todoLE l,
    fun k => filter_key_sortTodos hv k⟩, by decide⟩
  rw [sortTodos_eq_spec hv]
  exact List.sorted_insertionSort specLE l

/-- C3 witness: the sortedness/permutation/stability statement applied to
the four example todos. -/
theorem c3_sort_order_witness :
    List.Sorted specLE (sortTodos [todoA, todoB, todoC, todoD]) ∧
    List.Perm (sortTodos [todoA, todoB, todoC, todoD]) [todoA, todoB, todoC, todoD] ∧
    (sortTodos [todoA, todoB, todoC, todoD]).filter
        (fun t => decide (flatKey t = (0, 1, 0, 1))) =
      [todoA, todoB, todoC, todoD].filter (fun t => decide (flatKey t = (0, 1, 0, 1))) :=
  let h := c3_sort_order.2.1 [todoA, todoB, todoC, todoD] (by decide)
  ⟨h.1, h.2.1, h.2.2 (0, 1, 0, 1)⟩

/-- C4: a todo appears in the list endpoint's result iff it is stored and
satisfies every supplied filter conjunctively (exact type, exact priority,
parsed completed boolean, exact tag membership, case-insensitive substring
search on title or description, due date at most `dueBefore` and at least
`dueAfter`, with null-due-date todos failing either due bound). -/
theorem c4_filter_conjunctive (q : TodosQuery) (todos : List Todo) (t : Todo) :
    t ∈ (listTodos q todos).1 ↔ t ∈ todos ∧ specMatches q t = true := by
  show t ∈ sortTodos (applyFilters q todos) ↔ _
  unfold sortTodos
  rw [List.mem_insertionSort]
  exact mem_applyFilters

/-- C5 counterexample: a create request whose type is present and invalid
but whose title is missing is answered 400 with "Title is required" — a
message that does not list the seven valid types (it does not even contain
"task") — because the title check runs before type validation. -/
theorem c5_counterexample :
    createTodo { type := some "xyz" } "a" 0 0 = .badRequest "Title is required" ∧
    (postTodos { type := some "xyz" } "a" 0 0 []).2 = [] ∧
    "Title is required" ≠
      "Invalid type. Must be one of: task, goal, habit, reminder, shopping, idea, bookmark" ∧
    strIncludes (lowerStr "Title is required") (lowerStr "task") = false := by
  decide

/-- C5 (amended): a create request with a truthy title and a type outside
the seven valid values is rejected 400 with the message listing the seven
types and the collection is unchanged; when the title is missing or empty
the response is still a 400 that adds nothing, but its message is
"Title is required" instead. -/
theorem c5_invalid_type_rejected :
    (∀ (req : CreateTodoReq) (newId : String) (t1 t2 : Nat) (l : List Todo) (s : String),
      strFalsy req.title = false → req.type = some s → ¬ s ∈ validTypes →
      (postTodos req newId t1 t2 l).1 =
        .badRequest
          "Invalid type. Must be one of: task, goal, habit, reminder, shopping, idea, bookmark" ∧
      (postTodos req newId t1 t2 l).2 = l) ∧
    (∀ (req : CreateTodoReq) (newId : String) (t1 t2 : Nat) (l : List Todo),
      strFalsy req.title = true →
      (postTodos req newId t1 t2 l).1 = .badRequest "Title is required" ∧
      (postTodos req newId t1 t2 l).2 = l) := by
  constructor
  · intro req newId t1 t2 l s htitle htype hinv
    have hp : parseTodoType (req.type.getD "task") = none := by
      rw [htype]
      exact (parseTodoType_eq_none_iff s).mpr hinv
    unfold postTodos createTodo
    rw [htitle]
    simp only [Bool.false_eq_true, if_false, hp]
    exact ⟨by decide, by trivial⟩
  · intro req newId t1 t2 l htitle
    unfold postTodos createTodo
    rw [htitle]
    simp

/-- C5 witness: the amended theorem applied to a request with title "x"
and type "xyz", and to a title-less request. -/
theorem c5_invalid_type_rejected_witness :
    ((postTodos { title := some "x", type := some "xyz" } "a" 0 0 []).1 =
      .badRequest
        "Invalid type. Must be one of: task, goal, habit, reminder, shopping, idea, bookmark" ∧
     (postTodos { title := some "x", type := some "xyz" } "a" 0 0 []).2 = []) ∧
    ((postTodos { type := some "xyz" } "a" 0 0 []).1 = .badRequest "Title is required" ∧
     (postTodos { type := some "xyz" } "a" 0 0 []).2 = []) :=
  ⟨c5_invalid_type_rejected.1 { title := some "x", type := some "xyz" } "a" 0 0 [] "xyz"
      (by decide) rfl (by decide),
   c5_invalid_type_rejected.2 { type := some "xyz" } "a" 0 0 [] (by decide)⟩

/-- C6: the code never validates `priority` — a create request carrying
priority "banana" stores it verbatim, so the reachable collection violates
the four-value catalogue of the TS `Priority` union. -/
theorem c6_priority_not_validated :
    (postTodos { title := some "x", priority := some "banana" } "a" 0 0 []).2.map
        Todo.priority = ["banana"] ∧
    ¬ "banana" ∈ validPriorities ∧
    Reachable (postTodos { title := some "x", priority := some "banana" } "a" 0 0 []).2 :=
  ⟨by decide, by decide,
   Reachable.create { title := some "x", priority := some "banana" } "a" 0 0 Reachable.init⟩

/-- C7: the list endpoint's meta block is computed over the returned
(filtered) result set: `total` is its length, the seven `byType` counts are
its per-type counts (zero when absent) and sum to `total`, and `completed`
and `pending` are the completion counts with `completed + pending = total`. -/
theorem c7_meta_counts (q : TodosQuery) (todos : List Todo) :
    (listTodos q todos).2.total = (listTodos q todos).1.length ∧
    (listTodos q todos).2.byType.task =
      ((listTodos q todos).1.filter (fun t => t.type == .task)).length ∧
    (listTodos q todos).2.byType.goal =
      ((listTodos q todos).1.filter (fun t => t.type == .goal)).length ∧
    (listTodos q todos).2.byType.habit =
      ((listTodos q todos).1.filter (fun t => t.type == .habit)).length ∧
    (listTodos q todos).2.byType.reminder =
      ((listTodos q todos).1.filter (fun t => t.type == .reminder)).length ∧
    (listTodos q todos).2.byType.shopping =
      ((listTodos q todos).1.filter (fun t => t.type == .shopping)).length ∧
    (listTodos q todos).2.byType.idea =
      ((listTodos q todos).1.filter (fun t => t.type == .idea)).length ∧
    (listTodos q todos).2.byType.bookmark =
      ((listTodos q todos).1.filter (fun t => t.type == .bookmark)).length ∧
    (listTodos q todos).2.completed =
      ((listTodos q todos).1.filter (fun t => t.isCompleted)).length ∧
    (listTodos q todos).2.pending =
      ((listTodos q todos).1.filter (fun t => !t.isCompleted)).length ∧
    (listTodos q todos).2.byType.task + (listTodos q todos).2.byType.goal +
      (listTodos q todos).2.byType.habit + (listTodos q todos).2.byType.reminder +
      (listTodos q todos).2.byType.shopping + (listTodos q todos).2.byType.idea +
      (listTodos q todos).2.byType.bookmark = (listTodos q todos).2.total ∧
    (listTodos q todos).2.completed + (listTodos q todos).2.pending =
      (listTodos q todos).2.total := by
  refine ⟨rfl, rfl, rfl, rfl, rfl, rfl, rfl, rfl, rfl, rfl, ?_, ?_⟩
  · exact byType_counts_sum (listTodos q todos).1
  · exact completed_pending_sum (listTodos q todos).1

/-- C8: a successful create populates the type-specific fields of the
resolved type only — `habitFrequency` (default "daily") exactly for habit,
`reminderTime` exactly for reminder, `url` exactly for bookmark and
`quantity` (default 1) exactly for shopping — and the other three keys are
absent even when the request supplies values for them. -/
theorem c8_type_specific_fields (req : CreateTodoReq) (newId : String) (t1 t2 : Nat) (t : Todo)
    (h : createTodo req newId t1 t2 = .created t) :
    t.habitFrequency =
      (if t.type = .habit then some (some (orDefaultStr req.habitFrequency "daily")) else none) ∧
    t.reminderTime = (if t.type = .reminder then some req.reminderTime else none) ∧
    t.url = (if t.type = .bookmark then some req.url else none) ∧
    t.quantity = (if t.type = .shopping then some (some (orDefaultInt req.quantity 1)) else none) ∧
    (t.habitFrequency ≠ none ↔ t.type = .habit) ∧
    (t.reminderTime ≠ none ↔ t.type = .reminder) ∧
    (t.url ≠ none ↔ t.type = .bookmark) ∧
    (t.quantity ≠ none ↔ t.type = .shopping) := by
  obtain ⟨-, -, -, -, -, -, -, -, hh, hr, hu, hq, -, -, -⟩ := createTodo_created_inv h
  refine ⟨hh, hr, hu, hq, ?_, ?_, ?_, ?_⟩
  · rw [hh]
    by_cases hty : t.type = .habit <;> simp [hty]
  · rw [hr]
    by_cases hty : t.type = .reminder <;> simp [hty]
  · rw [hu]
    by_cases hty : t.type = .bookmark <;> simp [hty]
  · rw [hq]
    by_cases hty : t.type = .shopping <;> simp [hty]

/-- C8 witness: the field equations at a habit created without a supplied
frequency. -/
theorem c8_type_specific_fields_witness :
    habitTodo.habitFrequency =
      (if habitTodo.type = .habit
        then some (some (orDefaultStr (none : Option String) "daily")) else none) ∧
    habitTodo.reminderTime = (if habitTodo.type = .reminder then some none else none) ∧
    habitTodo.url = (if habitTodo.type = .bookmark then some none else none) ∧
    habitTodo.quantity =
      (if habitTodo.type = .shopping
        then some (some (orDefaultInt (none : Option Int) 1)) else none) ∧
    (habitTodo.habitFrequency ≠ none ↔ habitTodo.type = .habit) ∧
    (habitTodo.reminderTime ≠ none ↔ habitTodo.type = .reminder) ∧
    (habitTodo.url ≠ none ↔ habitTodo.type = .bookmark) ∧
    (habitTodo.quantity ≠ none ↔ habitTodo.type = .shopping) :=
  c8_type_specific_fields { title := some "h", type := some "habit" } "h1" 0 0 habitTodo
    (by decide)

/-- C9 counterexample: both create handlers read the clock twice (one
`new Date()` per timestamp), so on an execution where the second read is
one tick later the created note has `createdAt = 0` but `updatedAt = 1` —
the two timestamps are not equal. -/
theorem c9_counterexample :
    (postNotes { title := some "n" } "n1" 0 1 []).2.map
        (fun n => (n.createdAt, n.updatedAt)) = [(0, 1)] ∧
    (0 : Nat) ≠ 1 := by
  decide

/-- C9 (amended): a created note or todo carries the handler's first clock
read as `createdAt` and its second as `updatedAt` — equal whenever the two
reads coincide — and every reachable note satisfies
`updatedAt ≥ createdAt` under a monotone clock. -/
theorem c9_timestamps :
    (∀ (req : CreateNoteReq) (newId : String) (t1 t2 : Nat) (n : Note),
      createNote req newId t1 t2 = .ok n →
      n.createdAt = t1 ∧ n.updatedAt = t2 ∧ (t1 = t2 → n.createdAt = n.updatedAt)) ∧
    (∀ (req : CreateTodoReq) (newId : String) (t1 t2 : Nat) (t : Todo),
      createTodo req newId t1 t2 = .created t →
      t.createdAt = t1 ∧ t.updatedAt = t2 ∧ (t1 = t2 → t.createdAt = t.updatedAt)) ∧
    (∀ (l : List Note) (c : Nat), ReachableN l c →
      ∀ n ∈ l, n.createdAt ≤ n.updatedAt) := by
  refine ⟨?_, ?_, ?_⟩
  · intro req newId t1 t2 n h
    obtain ⟨-, -, -, -, -, h1, h2⟩ := createNote_ok_inv h
    exact ⟨h1, h2, fun he => by rw [h1, h2, he]⟩
  · intro req newId t1 t2 t h
    obtain ⟨-, -, -, -, -, -, -, -, -, -, -, -, h1, h2, -⟩ := createTodo_created_inv h
    exact ⟨h1, h2, fun he => by rw [h1, h2, he]⟩
  · intro l c h n hn
    exact (reachableN_timestamps h n hn).1

/-- C9 witness: the amended statement at a note created with both clock
reads equal to 5, and the invariant at the resulting reachable state. -/
theorem c9_timestamps_witness :
    (noteN.createdAt = 5 ∧ noteN.updatedAt = 5 ∧
      (5 = 5 → noteN.createdAt = noteN.updatedAt)) ∧
    noteN.createdAt ≤ noteN.updatedAt :=
  ⟨c9_timestamps.1 { title := some "n" } "n1" 5 5 noteN (by decide),
   c9_timestamps.2.2 (postNotes { title := some "n" } "n1" 5 5 []).2 5
     (ReachableN.create { title := some "n" } "n1" 5 5 ReachableN.init
       (Nat.zero_le 5) (Nat.le_refl 5))
     noteN (by decide)⟩

/-- C10: the update handler's merge set excludes `type`, so updating an
existing todo — whatever the body supplies — replaces it in place (same
position, same collection length) with a todo keeping its `id`, `type` and
`createdAt`. -/
theorem c10_update_frame (pre post : List Todo) (t : Todo) (id : String)
    (req : UpdateTodoReq) (now : Nat)
    (hpre : ∀ u ∈ pre, (u.id == id) = false) (ht : (t.id == id) = true) :
    (putTodos id req now (pre ++ t :: post)).2 = pre ++ applyUpdate req t now :: post ∧
    (applyUpdate req t now).id = t.id ∧
    (applyUpdate req t now).type = t.type ∧
    (applyUpdate req t now).createdAt = t.createdAt ∧
    (putTodos id req now (pre ++ t :: post)).2.length = (pre ++ t :: post).length := by
  have h := putTodos_append id req now pre t post hpre ht
  refine ⟨by rw [h], rfl, rfl, rfl, ?_⟩
  rw [h]
  simp

/-- C10 witness: the frame theorem at todo A alone in the collection, with
an update body supplying a new title. -/
theorem c10_update_frame_witness :
    (putTodos "a" { title := some "y" } 7 ([] ++ todoA :: [])).2 =
      [] ++ applyUpdate { title := some "y" } todoA 7 :: [] ∧
    (applyUpdate { title := some "y" } todoA 7).id = todoA.id ∧
    (applyUpdate { title := some "y" } todoA 7).type = todoA.type ∧
    (applyUpdate { title := some "y" } todoA 7).createdAt = todoA.createdAt ∧
    (putTodos "a" { title := some "y" } 7 ([] ++ todoA :: [])).2.length =
      ([] ++ todoA :: []).length :=
  c10_update_frame [] [] todoA "a" { title := some "y" } 7
    (by intro u hu; simp at hu) (by decide)
